import Mathlib

/-!
Verification model of the outbound message delivery subsystem of the
Ekf2.1 repository, embedded from src/bot/utils/advanced_rate_limiter.py
(class AdvancedRateLimiter).  Time values are rationals standing for the
float seconds of time.time(); Python dicts keyed by channel id are modelled
as total functions with the default value of the corresponding defaultdict,
plus an explicit insertion-ordered key list for the one dict whose key set
the source iterates (channel_queues).  Deques with maxlen are modelled as
lists whose append drops the oldest entry at capacity.
-/

unseal Rat.sub Rat.add Rat.mul Rat.inv

namespace AdvancedRateLimiter

/-- Rate limiting constants of the source (lines 49-52). -/
def GLOBAL_RATE_LIMIT : Nat := 50

def CHANNEL_RATE_LIMIT : Nat := 5

def MESSAGE_DELAY : ℚ := 1 / 5

def dedup_window : ℚ := 30

/-- MessagePriority enum (lines 18-22). -/
inductive MessagePriority where
  | CRITICAL
  | HIGH
  | NORMAL
  | LOW
deriving DecidableEq

/-- Numeric value of each enum member, as in the source. -/
def MessagePriority.value : MessagePriority → Nat
  | .CRITICAL => 1
  | .HIGH => 2
  | .NORMAL => 3
  | .LOW => 4

/-- The stable content fields of a discord.Embed that the limiter reads:
title, description, the number of fields, and the footer text.  Optional
fields are None-able in the source. -/
structure Embed where
  title : Option String
  description : Option String
  fieldsCount : Nat
  footerText : Option String
deriving DecidableEq

/-- QueuedMessage dataclass (lines 24-33).  The file and content payloads are
opaque to the limiter; the callback is an external effect and carries no
limiter-visible state, so it is modelled as an optional unit marker. -/
structure QueuedMessage where
  channel_id : Nat
  embed : Embed
  file : Option String
  content : Option String
  priority : MessagePriority
  timestamp : ℚ
  retry_count : Nat
deriving DecidableEq

/-- Pointwise update of a dict modelled as a total function. -/
def upd {α : Type} (f : Nat → α) (k : Nat) (v : α) : Nat → α :=
  fun n => if n = k then v else f n

/-- Key-list update for defaultdict subscript access: a missing key is
appended in insertion order. -/
def addKey (ks : List Nat) (k : Nat) : List Nat :=
  if ks.contains k then ks else ks ++ [k]

/-- Mutable state of one AdvancedRateLimiter instance (lines 58-72).
channel_queues_keys is the insertion-ordered key set of the channel_queues
defaultdict; the other dicts are modelled as total functions with the
default value of the defaultdict, because the source never iterates their
key sets. -/
structure RLState where
  channel_queues_keys : List Nat
  channel_queues : Nat → List QueuedMessage
  channel_last_sent : Nat → ℚ
  channel_message_count : Nat → List ℚ
  global_message_times : List ℚ
  processing_channels : List Nat
  global_rate_limit_reset : ℚ
  recent_embeds : Nat → List (ℚ × String)

/-- The freshly constructed limiter: every tracking structure empty. -/
def baseState : RLState where
  channel_queues_keys := []
  channel_queues := fun _ => []
  channel_last_sent := fun _ => 0
  channel_message_count := fun _ => []
  global_message_times := []
  processing_channels := []
  global_rate_limit_reset := 0
  recent_embeds := fun _ => []

/-- Deterministic stand-in for the Python hash builtin on strings, reduced
modulo 2 to the 64: only determinism on the stable fields matters to the
limiter, not the concrete value. -/
def strHash (s : String) : Nat :=
  s.data.foldl (fun h c => (h * 31 + c.toNat) % (2 ^ 64)) 5381

/-- generate_embed_hash (lines 130-141): the decimal string of the hash of
the underscore-join of the stable fields.  The except fallback of the source
(a fresh timestamp string) is unreachable here because no step can fail. -/
def generate_embed_hash (e : Embed) : String :=
  toString (strHash (String.intercalate "_"
    [e.title.getD "", e.description.getD "", toString e.fieldsCount, e.footerText.getD ""]))

/-- The string the source stores in recent_embeds (line 100): the repr of the
recording time, an underscore, then the fingerprint.  The record is modelled
as the pair (time, fingerprint); this function recovers the stored string. -/
def dedupRecordStr (r : ℚ × String) : String :=
  toString r.1 ++ "_" ++ r.2

/-- Priority insertion of queue_message (lines 113-123): walk the queue and
insert before the first entry whose priority value is strictly greater,
appending at the end when there is none. -/
def insertByPriority (queue : List QueuedMessage) (message : QueuedMessage) :
    List QueuedMessage :=
  match queue with
  | [] => [message]
  | existing :: rest =>
    if message.priority.value < existing.priority.value then
      message :: existing :: rest
    else
      existing :: insertByPriority rest message

/-- queue_message (lines 77-128).  Purges expired dedup records (the source
parses the recording time back out of the stored string prefix), tests the
bare fingerprint for membership in the list of stored time-prefixed strings,
and either returns (suppressed) or records the fingerprint and inserts the
new message by priority. -/
def queue_message (st : RLState) (now : ℚ) (channel_id : Nat) (embed : Embed)
    (file : Option String) (content : Option String)
    (priority : MessagePriority) : RLState :=
  let embed_hash := generate_embed_hash embed
  let purged := (st.recent_embeds channel_id).filter (fun r => now - r.1 < dedup_window)
  let st1 := { st with recent_embeds := upd st.recent_embeds channel_id purged }
  if purged.any (fun r => embed_hash == dedupRecordStr r) then
    st1
  else
    let st2 := { st1 with
      recent_embeds := upd st1.recent_embeds channel_id (purged ++ [(now, embed_hash)]) }
    let message : QueuedMessage :=
      ⟨channel_id, embed, file, content, priority, now, 0⟩
    { st2 with
      channel_queues_keys := addKey st2.channel_queues_keys channel_id
      channel_queues := upd st2.channel_queues channel_id
        (insertByPriority (st2.channel_queues channel_id) message) }

/-- Drop-from-the-front purge shared by both sliding windows: the source pops
entries from the left while the oldest one is strictly older than the window
(lines 180-181 and 197-198). -/
def purgeWindow (window : ℚ) (now : ℚ) : List ℚ → List ℚ
  | [] => []
  | x :: xs => if now - x > window then purgeWindow window now xs else x :: xs

/-- Append to a deque with maxlen: at capacity the oldest entry is evicted. -/
def dequeAppend (maxlen : Nat) (xs : List ℚ) (x : ℚ) : List ℚ :=
  let ys := xs ++ [x]
  if maxlen < ys.length then ys.drop (ys.length - maxlen) else ys

/-- is_globally_rate_limited (lines 177-191): purges the global window in
place, then reports a limit when the window is at capacity or the reset
deadline from a global 429 lies in the future. -/
def is_globally_rate_limited (st : RLState) (now : ℚ) : Bool × RLState :=
  let times := purgeWindow 1 now st.global_message_times
  let st1 := { st with global_message_times := times }
  if GLOBAL_RATE_LIMIT ≤ times.length then (true, st1)
  else if now < st1.global_rate_limit_reset then (true, st1)
  else (false, st1)

/-- can_send_to_channel (lines 193-209): purges the channel window in place,
then refuses when the window is at capacity or the minimum spacing since the
last send (default 0) has not elapsed. -/
def can_send_to_channel (st : RLState) (channel_id : Nat) (now : ℚ) :
    Bool × RLState :=
  let times := purgeWindow 5 now (st.channel_message_count channel_id)
  let st1 := { st with channel_message_count := upd st.channel_message_count channel_id times }
  if CHANNEL_RATE_LIMIT ≤ times.length then (false, st1)
  else if now - st1.channel_last_sent channel_id < MESSAGE_DELAY then (false, st1)
  else (true, st1)

/-- Outcome of one transport send, as distinguished by send_message
(lines 274-306): success, a 429 carrying retry_after and a global flag, a
non-429 HTTP error, or any other exception. -/
inductive TransportResult where
  | ok
  | rateLimited (retry_after : ℚ) (isGlobal : Bool)
  | httpError
  | exn
deriving DecidableEq

/-- send_message (lines 274-306).  A global 429 sets the global reset
deadline to now plus retry_after; a channel 429 only logs.  The source then
sleeps retry_after before returning False; that passage of time lives in
the clock of the caller.  Every non-ok outcome returns False. -/
def send_message (st : RLState) (now : ℚ) (res : TransportResult) :
    Bool × RLState :=
  match res with
  | TransportResult.ok => (true, st)
  | TransportResult.rateLimited retry_after isGlobal =>
    if isGlobal then (false, { st with global_rate_limit_reset := now + retry_after })
    else (false, st)
  | TransportResult.httpError => (false, st)
  | TransportResult.exn => (false, st)

/-- Outcome of one iteration of the while body of _process_channel_queue. -/
inductive StepRes where
  | emptyQ
  | blocked
  | sentOk (m : QueuedMessage)
  | requeue (m : QueuedMessage)
  | drop (m : QueuedMessage)
deriving DecidableEq

/-- One iteration of the while loop of _process_channel_queue
(lines 226-260): stop when the queue is empty; re-check channel and global
eligibility (each purging its window in place) and stop when either fails;
otherwise pop the head, attempt the send, and on success record the
timestamp in both windows and in channel_last_sent (the success callback is
an external effect), while on failure re-insert the message at the absolute
front with retry_count incremented when the new count is below 3, dropping
it otherwise. -/
def drainStep (st : RLState) (channel_id : Nat) (now : ℚ)
    (res : TransportResult) : StepRes × RLState :=
  match st.channel_queues channel_id with
  | [] => (StepRes.emptyQ, st)
  | message :: rest =>
    let c := can_send_to_channel st channel_id now
    if !c.1 then (StepRes.blocked, c.2)
    else
      let g := is_globally_rate_limited c.2 now
      if g.1 then (StepRes.blocked, g.2)
      else
        let st1 := { g.2 with channel_queues := upd (g.2).channel_queues channel_id rest }
        let s := send_message st1 now res
        if s.1 then
          (StepRes.sentOk message,
            { s.2 with
              global_message_times := dequeAppend GLOBAL_RATE_LIMIT s.2.global_message_times now
              channel_message_count := upd s.2.channel_message_count channel_id
                (dequeAppend CHANNEL_RATE_LIMIT (s.2.channel_message_count channel_id) now)
              channel_last_sent := upd s.2.channel_last_sent channel_id now })
        else
          let bumped : QueuedMessage :=
            { message with retry_count := message.retry_count + 1 }
          if bumped.retry_count < 3 then
            let q2 := bumped :: s.2.channel_queues channel_id
            (StepRes.requeue bumped,
              { s.2 with channel_queues := upd s.2.channel_queues channel_id q2 })
          else
            (StepRes.drop bumped, s.2)

/-- Observable delivery events of one worker run, for counting attempts,
successful sends and permanently dropped messages. -/
inductive DeliveryEvent where
  | attempt (m : QueuedMessage) (t : ℚ)
  | sent (m : QueuedMessage) (t : ℚ)
  | dropped (m : QueuedMessage) (t : ℚ)
deriving DecidableEq

def numAttempts (evs : List DeliveryEvent) : Nat :=
  evs.countP (fun e => match e with | DeliveryEvent.attempt _ _ => true | _ => false)

def numSent (evs : List DeliveryEvent) : Nat :=
  evs.countP (fun e => match e with | DeliveryEvent.sent _ _ => true | _ => false)

def numDropped (evs : List DeliveryEvent) : Nat :=
  evs.countP (fun e => match e with | DeliveryEvent.dropped _ _ => true | _ => false)

/-- The while loop of _process_channel_queue.  Each iteration reads the
clock once (the source calls time.time at the top of the body) and consumes
one transport outcome; the index k advances by one per iteration, so the
clock also accounts for the sleeps inside and after each attempt.  Fuel
bounds the number of iterations; every theorem below either holds for all
fuel or uses a fuel visibly larger than the number of iterations of its
scenario. -/
def drainLoop : Nat → RLState → Nat → (Nat → ℚ) → (Nat → TransportResult) →
    Nat → RLState × List DeliveryEvent
  | 0, st, _, _, _, _ => (st, [])
  | Nat.succ fuel, st, channel_id, clock, transport, k =>
    let now := clock k
    match drainStep st channel_id now (transport k) with
    | (StepRes.emptyQ, st1) => (st1, [])
    | (StepRes.blocked, st1) => (st1, [])
    | (StepRes.sentOk m, st1) =>
      let r := drainLoop fuel st1 channel_id clock transport (k + 1)
      (r.1, DeliveryEvent.attempt m now :: DeliveryEvent.sent m now :: r.2)
    | (StepRes.requeue m, st1) =>
      let r := drainLoop fuel st1 channel_id clock transport (k + 1)
      (r.1, DeliveryEvent.attempt m now :: r.2)
    | (StepRes.drop m, st1) =>
      let r := drainLoop fuel st1 channel_id clock transport (k + 1)
      (r.1, DeliveryEvent.attempt m now :: DeliveryEvent.dropped m now :: r.2)

/-- _process_channel_queue (lines 211-272).  A re-entrant call for a channel
already claimed in processing_channels returns at once, before any state is
touched.  Otherwise the claim is added, the queue is cleared when the
channel cannot be resolved (channel_found), the drain loop runs, and the
finally block releases the claim.  Subscripting the channel_queues
defaultdict records the key. -/
def process_channel_queue (fuel : Nat) (st : RLState) (channel_id : Nat)
    (channel_found : Bool) (clock : Nat → ℚ) (transport : Nat → TransportResult) :
    RLState × List DeliveryEvent :=
  if st.processing_channels.contains channel_id then (st, [])
  else
    let st0 := { st with
      processing_channels := channel_id :: st.processing_channels
      channel_queues_keys := addKey st.channel_queues_keys channel_id }
    let res :=
      if channel_found then drainLoop fuel st0 channel_id clock transport 0
      else ({ st0 with channel_queues := upd st0.channel_queues channel_id [] }, [])
    ({ res.1 with processing_channels := res.1.processing_channels.erase channel_id },
      res.2)

/-- One cycle of the dispatcher loop _process_queues (lines 143-175): when
globally rate limited the cycle only sleeps; otherwise it scans the key list
of channel_queues and collects every channel with a non-empty queue, no
active worker claim, and channel eligibility, spawning a worker for each
(the spawned channel ids are returned). -/
def process_queues_cycle (st : RLState) (now : ℚ) : RLState × List Nat :=
  let g := is_globally_rate_limited st now
  if g.1 then (g.2, [])
  else
    g.2.channel_queues_keys.foldl
      (fun acc channel_id =>
        if (acc.1.channel_queues channel_id).isEmpty then acc
        else if acc.1.processing_channels.contains channel_id then acc
        else
          let c := can_send_to_channel acc.1 channel_id now
          if c.1 then (c.2, acc.2 ++ [channel_id]) else (c.2, acc.2))
      (g.2, [])

/-- The record returned by get_queue_stats (lines 308-324).  The
priority_breakdown dict is modelled as the total counting function; the
source dict carries only the keys of priorities present, which is the same
data. -/
structure QueueStats where
  total_queued : Nat
  active_channels : Nat
  processing_channels : Nat
  priority_breakdown : MessagePriority → Nat
  global_rate_limit_active : Bool
  recent_global_messages : Nat

/-- get_queue_stats (lines 308-324).  Every read goes through the values of
the channel_queues dict (never a defaultdict subscript, so no key is
inserted), the length of the processing set, the global window length, and
a comparison of the clock with the global reset deadline. -/
def get_queue_stats (st : RLState) (now : ℚ) : QueueStats :=
  let queues := st.channel_queues_keys.map st.channel_queues
  { total_queued := (queues.map List.length).sum
    active_channels := (queues.filter (fun q => !q.isEmpty)).length
    processing_channels := st.processing_channels.length
    priority_breakdown := fun p =>
      (queues.map (fun q => (q.filter (fun m => m.priority == p)).length)).sum
    global_rate_limit_active := decide (now < st.global_rate_limit_reset)
    recent_global_messages := st.global_message_times.length }

/-- get_queue_stats viewed as a call on the limiter: the method body contains
no write to any field (it reads dict values, list lengths and the clock), so
the post-state is the pre-state. -/
def get_queue_stats_call (st : RLState) (now : ℚ) : QueueStats × RLState :=
  (get_queue_stats st now, st)

/-- Concurrency model for the worker claims: the processing set plus, for
every worker task identity, the channel claim it currently holds.  This is
the state the dispatcher and the workers share through lines 211-216 and
271-272 of the source. -/
structure WorkerSys where
  procSet : List Nat
  holding : Nat → Option Nat

/-- Initial system: no claims held. -/
def initSys : WorkerSys where
  procSet := []
  holding := fun _ => none

/-- Atomic transitions of the claim protocol.  enter is the check-then-add
of lines 213-216 (no suspension point between them, so atomic); enterNoop is
the early return when the channel is already claimed; exitW is the discard
in the finally block (line 272). -/
inductive WStep : WorkerSys → WorkerSys → Prop where
  | enter (s : WorkerSys) (w cid : Nat) :
      s.holding w = none → cid ∉ s.procSet →
      WStep s ⟨cid :: s.procSet, fun w2 => if w2 = w then some cid else s.holding w2⟩
  | enterNoop (s : WorkerSys) (w cid : Nat) :
      s.holding w = none → cid ∈ s.procSet →
      WStep s s
  | exitW (s : WorkerSys) (w cid : Nat) :
      s.holding w = some cid →
      WStep s ⟨s.procSet.erase cid, fun w2 => if w2 = w then none else s.holding w2⟩

/-- Mutual exclusion invariant: no two workers hold the same channel claim,
and every held claim is recorded in the processing set. -/
def WInv (s : WorkerSys) : Prop :=
  (∀ w1 w2 cid, s.holding w1 = some cid → s.holding w2 = some cid → w1 = w2) ∧
  (∀ w cid, s.holding w = some cid → cid ∈ s.procSet)

/-- Fold of priority insertions over an arbitrary arrival sequence, the
queue built by successive queue_message calls to one destination. -/
def queueOf (ms : List QueuedMessage) : List QueuedMessage :=
  ms.foldl insertByPriority []

/-- An embed with small concrete stable fields, for the scenario runs. -/
def embedA : Embed := ⟨some "t", some "d", 0, some "f"⟩

/-- A NORMAL priority message for channel 1, enqueued at time 0. -/
def msgA : QueuedMessage := ⟨1, embedA, none, none, MessagePriority.NORMAL, 0, 0⟩

/-- A CRITICAL priority message for channel 1, enqueued at time 1. -/
def msgC : QueuedMessage := ⟨1, embedA, none, none, MessagePriority.CRITICAL, 1, 0⟩

/-- A LOW priority message for channel 1, enqueued at time 2. -/
def msgL : QueuedMessage := ⟨1, embedA, none, none, MessagePriority.LOW, 2, 0⟩

/-- A fresh limiter holding exactly one queued message for one channel. -/
def singleMsgState (cid : Nat) (m : QueuedMessage) : RLState :=
  { baseState with
    channel_queues_keys := [cid]
    channel_queues := upd baseState.channel_queues cid [m] }

/-- Clock advancing one time unit per iteration, starting at 1 so the
minimum spacing against the default last-sent value 0 has elapsed. -/
def clockA : Nat → ℚ := fun k => 1 + k

/-- Clock advancing six time units per iteration, enough for a sleep of a
retry_after of up to 5 inside an iteration. -/
def clockB : Nat → ℚ := fun k => 1 + 6 * k

/-- Transport failing the first two attempts transiently, then succeeding. -/
def transportFF : Nat → TransportResult :=
  fun k => if k < 2 then TransportResult.httpError else TransportResult.ok

/-- Transport failing every attempt transiently. -/
def transportAllFail : Nat → TransportResult := fun _ => TransportResult.httpError

/-- Transport answering the first attempt with a channel-scoped 429 carrying
retry_after 5, then succeeding. -/
def transportRL : Nat → TransportResult :=
  fun k => if k = 0 then TransportResult.rateLimited 5 false else TransportResult.ok

/-! ## Helper lemmas -/

lemma upd_same {α : Type} (f : Nat → α) (k : Nat) (v : α) : upd f k v k = v := by
  simp [upd]

lemma send_message_fst (st : RLState) (now : ℚ) (res : TransportResult) :
    (send_message st now res).1 = (res == TransportResult.ok) := by
  cases res with
  | rateLimited r g => simp only [send_message]; split <;> rfl
  | _ => rfl

lemma send_message_queues (st : RLState) (now : ℚ) (res : TransportResult) :
    ((send_message st now res).2).channel_queues = st.channel_queues := by
  cases res with
  | rateLimited r g => simp only [send_message]; split <;> rfl
  | _ => rfl

lemma send_message_cmc (st : RLState) (now : ℚ) (res : TransportResult) :
    ((send_message st now res).2).channel_message_count = st.channel_message_count := by
  cases res with
  | rateLimited r g => simp only [send_message]; split <;> rfl
  | _ => rfl

lemma send_message_cls (st : RLState) (now : ℚ) (res : TransportResult) :
    ((send_message st now res).2).channel_last_sent = st.channel_last_sent := by
  cases res with
  | rateLimited r g => simp only [send_message]; split <;> rfl
  | _ => rfl

lemma send_message_gmt (st : RLState) (now : ℚ) (res : TransportResult) :
    ((send_message st now res).2).global_message_times = st.global_message_times := by
  cases res with
  | rateLimited r g => simp only [send_message]; split <;> rfl
  | _ => rfl

lemma send_message_reset_rl (st : RLState) (now : ℚ) (r : ℚ) (g : Bool) :
    ((send_message st now (TransportResult.rateLimited r g)).2).global_rate_limit_reset =
      if g then now + r else st.global_rate_limit_reset := by
  simp only [send_message]
  split <;> simp_all

lemma send_message_reset_other (st : RLState) (now : ℚ) (res : TransportResult)
    (h : res = TransportResult.httpError ∨ res = TransportResult.exn ∨
      res = TransportResult.ok) :
    ((send_message st now res).2).global_rate_limit_reset = st.global_rate_limit_reset := by
  rcases h with rfl | rfl | rfl <;> rfl

lemma can_send_queues (st : RLState) (cid : Nat) (now : ℚ) :
    ((can_send_to_channel st cid now).2).channel_queues = st.channel_queues := by
  simp only [can_send_to_channel]; split_ifs <;> rfl

lemma can_send_cmc (st : RLState) (cid : Nat) (now : ℚ) :
    ((can_send_to_channel st cid now).2).channel_message_count =
      upd st.channel_message_count cid
        (purgeWindow 5 now (st.channel_message_count cid)) := by
  simp only [can_send_to_channel]; split_ifs <;> rfl

lemma can_send_cls (st : RLState) (cid : Nat) (now : ℚ) :
    ((can_send_to_channel st cid now).2).channel_last_sent = st.channel_last_sent := by
  simp only [can_send_to_channel]; split_ifs <;> rfl

lemma can_send_gmt (st : RLState) (cid : Nat) (now : ℚ) :
    ((can_send_to_channel st cid now).2).global_message_times =
      st.global_message_times := by
  simp only [can_send_to_channel]; split_ifs <;> rfl

lemma can_send_reset (st : RLState) (cid : Nat) (now : ℚ) :
    ((can_send_to_channel st cid now).2).global_rate_limit_reset =
      st.global_rate_limit_reset := by
  simp only [can_send_to_channel]; split_ifs <;> rfl

lemma glim_queues (st : RLState) (now : ℚ) :
    ((is_globally_rate_limited st now).2).channel_queues = st.channel_queues := by
  simp only [is_globally_rate_limited]; split_ifs <;> rfl

lemma glim_gmt (st : RLState) (now : ℚ) :
    ((is_globally_rate_limited st now).2).global_message_times =
      purgeWindow 1 now st.global_message_times := by
  simp only [is_globally_rate_limited]; split_ifs <;> rfl

lemma glim_cmc (st : RLState) (now : ℚ) :
    ((is_globally_rate_limited st now).2).channel_message_count =
      st.channel_message_count := by
  simp only [is_globally_rate_limited]; split_ifs <;> rfl

lemma glim_cls (st : RLState) (now : ℚ) :
    ((is_globally_rate_limited st now).2).channel_last_sent = st.channel_last_sent := by
  simp only [is_globally_rate_limited]; split_ifs <;> rfl

lemma glim_reset (st : RLState) (now : ℚ) :
    ((is_globally_rate_limited st now).2).global_rate_limit_reset =
      st.global_rate_limit_reset := by
  simp only [is_globally_rate_limited]; split_ifs <;> rfl

/-- A negative global check means the reset deadline has passed. -/
lemma glim_false_reset_le (st : RLState) (now : ℚ)
    (h : (is_globally_rate_limited st now).1 = false) :
    st.global_rate_limit_reset ≤ now := by
  simp only [is_globally_rate_limited] at h
  split_ifs at h
  · exact le_of_not_lt (by assumption)

/-- A pending global deadline forces the global check to report a limit. -/
lemma glim_fst_of_deadline (st : RLState) (now : ℚ)
    (h : now < st.global_rate_limit_reset) :
    (is_globally_rate_limited st now).1 = true := by
  simp only [is_globally_rate_limited]
  split_ifs with h1 h2
  all_goals first | rfl | exact absurd h h2

/-- Complete case analysis of one iteration of the worker loop on a
non-empty queue: either a check blocks the loop, or the head is sent and
both windows and the last-sent time are updated, or the send fails and the
head is either re-queued at the front with its retry count incremented
(new count below 3) or dropped (count at 3), with no window append. -/
lemma drainStep_cases (st : RLState) (cid : Nat) (now : ℚ)
    (res : TransportResult) (m0 : QueuedMessage) (rest : List QueuedMessage)
    (sr : StepRes) (st1 : RLState)
    (hq : st.channel_queues cid = m0 :: rest)
    (hstep : drainStep st cid now res = (sr, st1)) :
    (sr = StepRes.blocked ∧ st1.channel_queues cid = m0 :: rest) ∨
    (sr = StepRes.sentOk m0 ∧ res = TransportResult.ok ∧
      st1.channel_queues cid = rest ∧
      st1.channel_message_count cid =
        dequeAppend CHANNEL_RATE_LIMIT
          (purgeWindow 5 now (st.channel_message_count cid)) now ∧
      st1.global_message_times =
        dequeAppend GLOBAL_RATE_LIMIT
          (purgeWindow 1 now st.global_message_times) now ∧
      st1.channel_last_sent cid = now ∧
      st.global_rate_limit_reset ≤ now) ∨
    ((sr = StepRes.requeue { m0 with retry_count := m0.retry_count + 1 } ∧
        st1.channel_queues cid = { m0 with retry_count := m0.retry_count + 1 } :: rest ∧
        m0.retry_count + 1 < 3 ∨
      sr = StepRes.drop { m0 with retry_count := m0.retry_count + 1 } ∧
        st1.channel_queues cid = rest ∧ 3 ≤ m0.retry_count + 1) ∧
      res ≠ TransportResult.ok ∧
      st1.channel_message_count cid = purgeWindow 5 now (st.channel_message_count cid) ∧
      st1.global_message_times = purgeWindow 1 now st.global_message_times ∧
      st1.channel_last_sent cid = st.channel_last_sent cid ∧
      (∀ r g, res = TransportResult.rateLimited r g →
        st1.global_rate_limit_reset =
          if g then now + r else st.global_rate_limit_reset) ∧
      ((res = TransportResult.httpError ∨ res = TransportResult.exn) →
        st1.global_rate_limit_reset = st.global_rate_limit_reset) ∧
      st.global_rate_limit_reset ≤ now) := by
  simp only [drainStep, hq] at hstep
  by_cases hc : (can_send_to_channel st cid now).1 = true
  · simp only [hc, Bool.not_true, Bool.false_eq_true, if_false] at hstep
    by_cases hg : (is_globally_rate_limited (can_send_to_channel st cid now).2 now).1 = true
    · simp only [hg, if_true] at hstep
      obtain ⟨h1, h2⟩ := Prod.mk.inj hstep
      left
      refine ⟨h1.symm, ?_⟩
      rw [← h2, glim_queues, can_send_queues]
      exact hq
    · simp only [Bool.not_eq_true] at hg
      have hle : st.global_rate_limit_reset ≤ now := by
        have := glim_false_reset_le _ now hg
        rwa [can_send_reset] at this
      simp only [hg, Bool.false_eq_true, if_false] at hstep
      rw [send_message_fst] at hstep
      by_cases hres : res = TransportResult.ok
      · subst hres
        simp only [show ((TransportResult.ok == TransportResult.ok) = true) from rfl,
          if_true] at hstep
        obtain ⟨h1, h2⟩ := Prod.mk.inj hstep
        right; left
        refine ⟨h1.symm, rfl, ?_, ?_, ?_, ?_, hle⟩
        · rw [← h2]
          simp only [send_message_queues, upd_same]
        · rw [← h2]
          simp only [upd_same, send_message_cmc, glim_cmc, can_send_cmc]
        · rw [← h2]
          simp only [send_message_gmt, glim_gmt, can_send_gmt]
        · rw [← h2]
          simp only [upd_same]
      · have hbeq : (res == TransportResult.ok) = false := by
          simpa using hres
        simp only [hbeq, Bool.false_eq_true, if_false] at hstep
        by_cases hb : m0.retry_count + 1 < 3
        · simp only [hb, if_true] at hstep
          obtain ⟨h1, h2⟩ := Prod.mk.inj hstep
          right; right
          refine ⟨Or.inl ⟨h1.symm, ?_, hb⟩, hres, ?_, ?_, ?_, ?_, ?_, hle⟩
          · rw [← h2]
            simp only [upd_same, send_message_queues, upd_same]
          · rw [← h2]
            simp only [upd_same, send_message_cmc, glim_cmc, can_send_cmc]
          · rw [← h2]
            simp only [send_message_gmt, glim_gmt, can_send_gmt]
          · rw [← h2]
            simp only [send_message_cls, glim_cls, can_send_cls]
          · intro r g hr
            subst hr
            rw [← h2]
            simp only [send_message_reset_rl, glim_reset, can_send_reset]
          · intro hother
            rw [← h2]
            rw [send_message_reset_other _ _ _ (by tauto), glim_reset, can_send_reset]
        · simp only [hb, if_false] at hstep
          obtain ⟨h1, h2⟩ := Prod.mk.inj hstep
          right; right
          refine ⟨Or.inr ⟨h1.symm, ?_, by omega⟩, hres, ?_, ?_, ?_, ?_, ?_, hle⟩
          · rw [← h2]
            simp only [send_message_queues, upd_same]
          · rw [← h2]
            simp only [upd_same, send_message_cmc, glim_cmc, can_send_cmc]
          · rw [← h2]
            simp only [send_message_gmt, glim_gmt, can_send_gmt]
          · rw [← h2]
            simp only [send_message_cls, glim_cls, can_send_cls]
          · intro r g hr
            subst hr
            rw [← h2]
            simp only [send_message_reset_rl, glim_reset, can_send_reset]
          · intro hother
            rw [← h2]
            rw [send_message_reset_other _ _ _ (by tauto), glim_reset, can_send_reset]
  · simp only [Bool.not_eq_true] at hc
    simp only [hc, Bool.not_false, if_true] at hstep
    obtain ⟨h1, h2⟩ := Prod.mk.inj hstep
    left
    refine ⟨h1.symm, ?_⟩
    rw [← h2, can_send_queues]
    exact hq

lemma drainLoop_queue_nil (fuel : Nat) (st : RLState) (cid : Nat)
    (clock : Nat → ℚ) (transport : Nat → TransportResult) (k : Nat)
    (h : st.channel_queues cid = []) :
    drainLoop fuel st cid clock transport k = (st, []) := by
  cases fuel with
  | zero => rfl
  | succ fuel => simp only [drainLoop, drainStep, h]

/-- Attempt and delivery bounds for a worker run over a single-message
queue, for any transport behaviour, clock and fuel. -/
lemma drain_single_bound (fuel : Nat) :
    ∀ (st : RLState) (cid : Nat) (clock : Nat → ℚ)
      (transport : Nat → TransportResult) (k : Nat) (m : QueuedMessage),
      st.channel_queues cid = [m] → m.retry_count ≤ 2 →
      numAttempts (drainLoop fuel st cid clock transport k).2 + m.retry_count ≤ 3 ∧
      numSent (drainLoop fuel st cid clock transport k).2 ≤ 1 := by
  induction fuel with
  | zero =>
    intro st cid clock transport k m hq hr
    simp [drainLoop, numAttempts, numSent]
    omega
  | succ fuel ih =>
    intro st cid clock transport k m hq hr
    rcases hstep : drainStep st cid (clock k) (transport k) with ⟨sr, st1⟩
    rcases drainStep_cases st cid (clock k) (transport k) m [] sr st1 hq hstep with
      ⟨rfl, hq1⟩ | ⟨rfl, hres, hq1, hrest⟩ |
      ⟨⟨rfl, hq1, hb⟩ | ⟨rfl, hq1, hb⟩, hrest⟩
    · simp only [drainLoop, hstep, numAttempts, numSent, List.countP_nil]
      omega
    · simp only [drainLoop, hstep]
      rw [drainLoop_queue_nil fuel st1 cid clock transport (k + 1) hq1]
      simp [numAttempts, numSent, List.countP_cons]
      omega
    · have hrec := ih st1 cid clock transport (k + 1)
        { m with retry_count := m.retry_count + 1 } hq1 (by simp; omega)
      simp only [drainLoop, hstep]
      simp only [numAttempts, numSent, List.countP_cons] at hrec ⊢
      simp at hrec ⊢
      omega
    · simp only [drainLoop, hstep]
      rw [drainLoop_queue_nil fuel st1 cid clock transport (k + 1) hq1]
      simp [numAttempts, numSent, List.countP_cons, List.countP_nil]
      omega

lemma mem_insertByPriority {l : List QueuedMessage} {m y : QueuedMessage} :
    y ∈ insertByPriority l m ↔ y ∈ l ∨ y = m := by
  induction l with
  | nil => simp [insertByPriority]
  | cons x xs ih =>
    simp only [insertByPriority]
    split
    · simp only [List.mem_cons]
      tauto
    · simp only [List.mem_cons, ih]
      tauto

lemma sorted_insertByPriority {l : List QueuedMessage} {m : QueuedMessage}
    (h : l.Pairwise (fun a b => a.priority.value ≤ b.priority.value)) :
    (insertByPriority l m).Pairwise (fun a b => a.priority.value ≤ b.priority.value) := by
  induction l with
  | nil => simp [insertByPriority]
  | cons x xs ih =>
    rw [List.pairwise_cons] at h
    obtain ⟨hx, hxs⟩ := h
    simp only [insertByPriority]
    split
    case isTrue hlt =>
      refine List.Pairwise.cons ?_ (List.Pairwise.cons hx hxs)
      intro y hy
      rcases List.mem_cons.mp hy with rfl | hy
      · exact le_of_lt hlt
      · exact le_trans (le_of_lt hlt) (hx y hy)
    case isFalse hge =>
      refine List.Pairwise.cons ?_ (ih hxs)
      intro y hy
      rcases mem_insertByPriority.mp hy with hy | rfl
      · exact hx y hy
      · exact le_of_not_lt hge

lemma filter_insertByPriority {l : List QueuedMessage} {m : QueuedMessage}
    {p : MessagePriority}
    (h : l.Pairwise (fun a b => a.priority.value ≤ b.priority.value)) :
    (insertByPriority l m).filter (fun x => x.priority == p) =
      if m.priority == p then
        l.filter (fun x => x.priority == p) ++ [m]
      else
        l.filter (fun x => x.priority == p) := by
  induction l with
  | nil =>
    simp only [insertByPriority, List.filter_nil]
    by_cases hmp : m.priority = p
    · simp [List.filter_cons, hmp]
    · simp [List.filter_cons, hmp]
  | cons x xs ih =>
    rw [List.pairwise_cons] at h
    obtain ⟨hx, hxs⟩ := h
    simp only [insertByPriority]
    split
    case isTrue hlt =>
      have hnil : (x :: xs).filter (fun y => y.priority == p) = [] ∨
          (m.priority == p) = false := by
        by_cases hmp : m.priority = p
        · left
          rw [List.filter_eq_nil_iff]
          intro y hy
          have hyv : x.priority.value ≤ y.priority.value := by
            rcases List.mem_cons.mp hy with rfl | hy
            · exact le_rfl
            · exact hx y hy
          have : m.priority.value < y.priority.value := lt_of_lt_of_le hlt hyv
          simp only [beq_iff_eq]
          intro hyp
          rw [hyp, ← hmp] at this
          exact lt_irrefl _ this
        · right
          simpa using hmp
      by_cases hmp : m.priority = p
      · have hn : (x :: xs).filter (fun y => y.priority == p) = [] := by
          rcases hnil with hn | hf
          · exact hn
          · simp [hmp] at hf
        have hb : (m.priority == p) = true := by simpa using hmp
        rw [List.filter_cons, hb]
        simp only [if_true, hn]
        simp [hb]
      · have hb : (m.priority == p) = false := by simpa using hmp
        simp [List.filter_cons, hb]
    case isFalse hge =>
      rw [List.filter_cons, List.filter_cons, ih hxs]
      by_cases hxp : x.priority = p <;> by_cases hmp : m.priority = p <;>
        simp [hxp, hmp]

lemma foldl_insert_sorted (ms : List QueuedMessage) (acc : List QueuedMessage)
    (h : acc.Pairwise (fun a b => a.priority.value ≤ b.priority.value)) :
    (ms.foldl insertByPriority acc).Pairwise
      (fun a b => a.priority.value ≤ b.priority.value) := by
  induction ms generalizing acc with
  | nil => simpa using h
  | cons m ms ih => exact ih _ (sorted_insertByPriority h)

lemma foldl_insert_filter (ms : List QueuedMessage) (acc : List QueuedMessage)
    (p : MessagePriority)
    (h : acc.Pairwise (fun a b => a.priority.value ≤ b.priority.value)) :
    (ms.foldl insertByPriority acc).filter (fun x => x.priority == p) =
      acc.filter (fun x => x.priority == p) ++ ms.filter (fun x => x.priority == p) := by
  induction ms generalizing acc with
  | nil => simp
  | cons m ms ih =>
    rw [List.foldl_cons, ih _ (sorted_insertByPriority h), filter_insertByPriority h,
      List.filter_cons]
    by_cases hmp : m.priority = p <;> simp [hmp]

/-- One step of the claim protocol preserves the mutual exclusion
invariant. -/
lemma wstep_preserves (s s2 : WorkerSys) (hinv : WInv s) (hstep : WStep s s2) :
    WInv s2 := by
  obtain ⟨hmut, hmem⟩ := hinv
  cases hstep with
  | enter w cid hw hnotin =>
    constructor
    · intro w1 w2 c h1 h2
      by_cases e1 : w1 = w <;> by_cases e2 : w2 = w
      · rw [e1, e2]
      · simp only [e1, if_pos rfl] at h1
        simp only [if_neg e2] at h2
        have hinj : cid = c := by injection h1
        exact absurd (hmem w2 c h2) (hinj ▸ hnotin)
      · simp only [if_neg e1] at h1
        simp only [e2, if_pos rfl] at h2
        have hinj : cid = c := by injection h2
        exact absurd (hmem w1 c h1) (hinj ▸ hnotin)
      · simp only [if_neg e1] at h1
        simp only [if_neg e2] at h2
        exact hmut w1 w2 c h1 h2
    · intro w1 c h1
      by_cases e1 : w1 = w
      · simp only [e1, if_pos rfl] at h1
        have hinj : cid = c := by injection h1
        rw [← hinj]
        exact List.mem_cons_self cid s.procSet
      · simp only [if_neg e1] at h1
        exact List.mem_cons_of_mem cid (hmem w1 c h1)
  | enterNoop w cid hw hin => exact ⟨hmut, hmem⟩
  | exitW w cid hw =>
    constructor
    · intro w1 w2 c h1 h2
      by_cases e1 : w1 = w
      · simp only [e1, if_pos rfl] at h1
        exact absurd h1 (by simp)
      · by_cases e2 : w2 = w
        · simp only [e2, if_pos rfl] at h2
          exact absurd h2 (by simp)
        · simp only [if_neg e1] at h1
          simp only [if_neg e2] at h2
          exact hmut w1 w2 c h1 h2
    · intro w1 c h1
      by_cases e1 : w1 = w
      · simp only [e1, if_pos rfl] at h1
        exact absurd h1 (by simp)
      · simp only [if_neg e1] at h1
        have hc : c ∈ s.procSet := hmem w1 c h1
        by_cases hccid : c = cid
        · subst hccid
          have : w1 = w := hmut w1 w c h1 hw
          exact absurd this e1
        · exact (List.mem_erase_of_ne hccid).mpr hc

/-- The bare fingerprint string can never equal a stored dedup record,
because the record string is the time repr, one underscore, and then the
fingerprint: it is strictly longer. -/
lemma dedup_lookup_misses_record (h : String) (t : ℚ) :
    (h == dedupRecordStr (t, h)) = false := by
  rw [beq_eq_false_iff_ne]
  intro he
  have hlen := congrArg String.length he
  simp only [dedupRecordStr, String.length_append] at hlen
  have hu : ("_" : String).length = 1 := rfl
  omega

/-! ## Claim theorems -/

/-- C1: the claimed dedup suppression does not happen in the code.  The same
embed is submitted to channel 1 at times 0 and 1, one time unit apart and
well inside the 30 unit dedup window, and BOTH submissions are enqueued: the
queue holds 2 messages after the second call although a dedup record for the
fingerprint was live (the first call recorded it and the purge keeps it).
The duplicate test of queue_message (line 95) asks whether the bare
fingerprint string is an element of a list whose elements are the
time-prefixed record strings (line 100), so it can never find a match (see
dedup_lookup_misses_record), contradicting the documented deduplication
behaviour of the class and of queue_message. -/
theorem c1_dedup_suppression_bug :
    ((queue_message baseState 0 1 embedA none none
      MessagePriority.NORMAL).channel_queues 1).length = 1 ∧
    ((queue_message baseState 0 1 embedA none none
      MessagePriority.NORMAL).recent_embeds 1).length = 1 ∧
    ((1 : ℚ) - 0 < dedup_window) ∧
    ((queue_message (queue_message baseState 0 1 embedA none none
      MessagePriority.NORMAL) 1 1 embedA none none
      MessagePriority.NORMAL).channel_queues 1).length = 2 :=
  ⟨by decide, by decide, by decide, by decide⟩

/-- C2 counterexample: after the transport answers the first attempt with a
channel-scoped rate limit (transportRL, retry_after 5), the worker loop does
NOT stop for the cycle: the same drain cycle performs a second attempt and
delivers the message (2 attempts, 1 send), where the claim predicts the loop
stops with exactly 1 attempt this cycle. -/
theorem c2_throttle_stop_counterexample :
    (transportRL 0 = TransportResult.rateLimited 5 false) ∧
    numAttempts (drainLoop 10 (singleMsgState 1 msgA) 1 clockB transportRL 0).2 = 2 ∧
    numSent (drainLoop 10 (singleMsgState 1 msgA) 1 clockB transportRL 0).2 = 1 :=
  ⟨rfl, by decide, by decide⟩

/-- C2 amended: on a rate-limited response for the dequeued head message the
global reset deadline is set to now + retry_after when the throttle is
global and nothing is recorded otherwise; the message is re-inserted at the
absolute front of the queue with retry count incremented (when the new count
is below 3); and the drain loop CONTINUES with the next iteration instead of
stopping for the cycle. -/
theorem c2_throttle_requeue_amended :
    ∀ (st : RLState) (cid : Nat) (now : ℚ) (r : ℚ) (g : Bool)
      (m0 : QueuedMessage) (rest : List QueuedMessage),
      st.channel_queues cid = m0 :: rest →
      (drainStep st cid now (TransportResult.rateLimited r g)).1 ≠ StepRes.blocked →
      m0.retry_count + 1 < 3 →
      (drainStep st cid now (TransportResult.rateLimited r g)).1 =
        StepRes.requeue { m0 with retry_count := m0.retry_count + 1 } ∧
      ((drainStep st cid now (TransportResult.rateLimited r g)).2).channel_queues cid =
        { m0 with retry_count := m0.retry_count + 1 } :: rest ∧
      ((drainStep st cid now (TransportResult.rateLimited r g)).2).global_rate_limit_reset =
        (if g then now + r else st.global_rate_limit_reset) ∧
      (∀ (fuel : Nat) (clock : Nat → ℚ) (transport : Nat → TransportResult) (k : Nat),
        clock k = now →
        transport k = TransportResult.rateLimited r g →
        (drainLoop (fuel + 1) st cid clock transport k).2 =
          DeliveryEvent.attempt { m0 with retry_count := m0.retry_count + 1 } now ::
            (drainLoop fuel
              (drainStep st cid now (TransportResult.rateLimited r g)).2
              cid clock transport (k + 1)).2) := by
  intro st cid now r g m0 rest hq hne hb
  have hstep : drainStep st cid now (TransportResult.rateLimited r g) =
      ((drainStep st cid now (TransportResult.rateLimited r g)).1,
        (drainStep st cid now (TransportResult.rateLimited r g)).2) := rfl
  rcases drainStep_cases st cid now (TransportResult.rateLimited r g) m0 rest _ _ hq hstep with
    ⟨hsr, _⟩ | ⟨_, hres, _⟩ |
    ⟨⟨hsr, hq1, _⟩ | ⟨hsr, _, hb2⟩, _, _, _, _, hreset, _, _⟩
  · exact absurd hsr hne
  · exact absurd hres (by simp)
  · have hreset2 := hreset r g rfl
    refine ⟨hsr, hq1, hreset2, ?_⟩
    intro fuel clock transport k hclock hts
    rcases hD : drainStep st cid now (TransportResult.rateLimited r g) with ⟨sr1, st2⟩
    have hsr1 : sr1 = StepRes.requeue { m0 with retry_count := m0.retry_count + 1 } := by
      rw [hD] at hsr
      exact hsr
    subst hsr1
    show (drainLoop (fuel + 1) st cid clock transport k).2 = _
    simp only [drainLoop, hclock, hts, hD]
  · exact absurd hb (by omega)

/-- C2 witness: the amended claim evaluated at a concrete state holding one
NORMAL message, a global 429 with retry_after 2 at time 1. -/
theorem c2_throttle_requeue_amended_witness :
    (drainStep (singleMsgState 1 msgA) 1 1 (TransportResult.rateLimited 2 true)).1 =
      StepRes.requeue { msgA with retry_count := 1 } ∧
    ((drainStep (singleMsgState 1 msgA) 1 1
      (TransportResult.rateLimited 2 true)).2).channel_queues 1 =
      [{ msgA with retry_count := 1 }] ∧
    ((drainStep (singleMsgState 1 msgA) 1 1
      (TransportResult.rateLimited 2 true)).2).global_rate_limit_reset =
      (if true then (1 : ℚ) + 2 else (singleMsgState 1 msgA).global_rate_limit_reset) ∧
    (∀ (fuel : Nat) (clock : Nat → ℚ) (transport : Nat → TransportResult) (k : Nat),
      clock k = 1 →
      transport k = TransportResult.rateLimited 2 true →
      (drainLoop (fuel + 1) (singleMsgState 1 msgA) 1 clock transport k).2 =
        DeliveryEvent.attempt { msgA with retry_count := 1 } 1 ::
          (drainLoop fuel
            (drainStep (singleMsgState 1 msgA) 1 1 (TransportResult.rateLimited 2 true)).2
            1 clock transport (k + 1)).2) :=
  c2_throttle_requeue_amended (singleMsgState 1 msgA) 1 1 2 true msgA []
    (by decide) (by decide) (by decide)

/-- C3 counterexample: handling a channel-scoped (non-global) rate limit
with retry_after 5 at time 1 records NO destination throttle deadline: the
limiter state is unchanged, and the destination eligibility check still
answers true at time 2, strictly before the claimed deadline 1 + 5. -/
theorem c3_record_throttle_counterexample :
    ((send_message baseState 1 (TransportResult.rateLimited 5 false)).2 = baseState) ∧
    ((can_send_to_channel
      (send_message baseState 1 (TransportResult.rateLimited 5 false)).2 1 2).1 = true) ∧
    ((2 : ℚ) < 1 + 5) :=
  ⟨rfl, by decide, by decide⟩

/-- C3 amended: on a GLOBAL rate-limited response the global reset deadline
is set to now + retry_after and the global eligibility check reports a limit
at any time before that deadline; on a non-global rate-limited response the
limiter records nothing at all (the state is returned unchanged; the worker
only sleeps retry_after before the failure return). -/
theorem c3_record_throttle_amended :
    ∀ (st : RLState) (now r t : ℚ),
      ((send_message st now (TransportResult.rateLimited r true)).2).global_rate_limit_reset
        = now + r ∧
      (t < now + r →
        (is_globally_rate_limited
          (send_message st now (TransportResult.rateLimited r true)).2 t).1 = true) ∧
      ((send_message st now (TransportResult.rateLimited r false)).2 = st) := by
  intro st now r t
  refine ⟨rfl, ?_, rfl⟩
  intro ht
  exact glim_fst_of_deadline _ t ht

/-- C3 witness: the amended claim evaluated at the base state with a global
429 carrying retry_after 5 at time 1, probed at time 2. -/
theorem c3_record_throttle_amended_witness :
    ((send_message baseState 1 (TransportResult.rateLimited 5 true)).2).global_rate_limit_reset
      = 1 + 5 ∧
    ((is_globally_rate_limited
      (send_message baseState 1 (TransportResult.rateLimited 5 true)).2 2).1 = true) :=
  ⟨(c3_record_throttle_amended baseState 1 5 2).1,
    (c3_record_throttle_amended baseState 1 5 2).2.1 (by decide)⟩

/-- C4: stable priority insertion.  For every arrival sequence to one
destination, the queue built by successive priority insertions is sorted by
priority value (so the head is always a most urgent message), and for every
priority tier the subsequence of that tier equals the arrival subsequence of
that tier (FIFO within a tier, no reordering of equal priorities). -/
theorem c4_stable_priority_insertion :
    ∀ ms : List QueuedMessage,
      (queueOf ms).Pairwise (fun a b => a.priority.value ≤ b.priority.value) ∧
      (∀ p : MessagePriority,
        (queueOf ms).filter (fun x => x.priority == p) =
          ms.filter (fun x => x.priority == p)) ∧
      (∀ h t, queueOf ms = h :: t →
        ∀ y ∈ queueOf ms, h.priority.value ≤ y.priority.value) := by
  intro ms
  have hs : (queueOf ms).Pairwise (fun a b => a.priority.value ≤ b.priority.value) :=
    foldl_insert_sorted ms [] (List.Pairwise.nil)
  refine ⟨hs, ?_, ?_⟩
  · intro p
    simpa using foldl_insert_filter ms [] p List.Pairwise.nil
  · intro h t hq y hy
    rw [hq] at hs hy
    rcases List.mem_cons.mp hy with rfl | hy
    · exact le_rfl
    · exact (List.pairwise_cons.mp hs).1 y hy

/-- C4 witness: arrivals NORMAL, CRITICAL, LOW produce the queue
CRITICAL, NORMAL, LOW, whose head is not less urgent than the LOW member. -/
theorem c4_stable_priority_insertion_witness :
    msgC.priority.value ≤ msgL.priority.value :=
  (c4_stable_priority_insertion [msgA, msgC, msgL]).2.2 msgC [msgA, msgL]
    (by decide) msgL (by decide)

/-- C5: retry bound.  For any transport, clock and fuel, a single queued
message is attempted at most 3 times and delivered at most once; a requeued
message carries an incremented retry count below 3 and sits at the queue
front; with two transient failures then a success the message is delivered
exactly once (3 attempts); with persistent failures it is attempted exactly
3 times, never delivered, dropped once, and the queue ends empty (no 4th
attempt). -/
theorem c5_retry_bound :
    (∀ (cid : Nat) (e : Embed) (fl ct : Option String) (p : MessagePriority)
      (ts : ℚ) (fuel : Nat) (clock : Nat → ℚ) (transport : Nat → TransportResult),
      numAttempts (drainLoop fuel
        (singleMsgState cid ⟨cid, e, fl, ct, p, ts, 0⟩) cid clock transport 0).2 ≤ 3 ∧
      numSent (drainLoop fuel
        (singleMsgState cid ⟨cid, e, fl, ct, p, ts, 0⟩) cid clock transport 0).2 ≤ 1) ∧
    (∀ (st : RLState) (cid : Nat) (now : ℚ) (res : TransportResult)
      (m : QueuedMessage),
      (drainStep st cid now res).1 = StepRes.requeue m →
      m.retry_count < 3 ∧
      (((drainStep st cid now res).2).channel_queues cid).head? = some m ∧
      ∃ m0 rest, st.channel_queues cid = m0 :: rest ∧
        m = { m0 with retry_count := m0.retry_count + 1 }) ∧
    (numSent (drainLoop 10 (singleMsgState 1 msgA) 1 clockA transportFF 0).2 = 1 ∧
      numAttempts (drainLoop 10 (singleMsgState 1 msgA) 1 clockA transportFF 0).2 = 3) ∧
    (numSent (drainLoop 10 (singleMsgState 1 msgA) 1 clockA transportAllFail 0).2 = 0 ∧
      numAttempts (drainLoop 10 (singleMsgState 1 msgA) 1 clockA transportAllFail 0).2 = 3 ∧
      numDropped (drainLoop 10 (singleMsgState 1 msgA) 1 clockA transportAllFail 0).2 = 1 ∧
      ((drainLoop 10 (singleMsgState 1 msgA) 1 clockA transportAllFail 0).1.channel_queues 1)
        = []) := by
  refine ⟨?_, ?_, by decide, by decide⟩
  · intro cid e fl ct p ts fuel clock transport
    have h := drain_single_bound fuel (singleMsgState cid ⟨cid, e, fl, ct, p, ts, 0⟩)
      cid clock transport 0 ⟨cid, e, fl, ct, p, ts, 0⟩ (by simp [singleMsgState, upd]) (by simp)
    simpa using h
  · intro st cid now res m h1
    have hstep : drainStep st cid now res =
        (StepRes.requeue m, (drainStep st cid now res).2) := by
      rw [← h1]
    rcases hqs : st.channel_queues cid with _ | ⟨m0, rest⟩
    · simp only [drainStep, hqs] at hstep
      exact absurd (Prod.mk.inj hstep).1 (by simp)
    · rcases drainStep_cases st cid now res m0 rest _ _ hqs hstep with
        ⟨hsr, _⟩ | ⟨hsr, _⟩ | ⟨⟨hsr, hq1, hb⟩ | ⟨hsr, _⟩, _⟩
      · exact absurd hsr (by simp)
      · exact absurd hsr (by simp)
      · have hm := StepRes.requeue.inj hsr
        subst hm
        refine ⟨by simpa using hb, by simp [hq1], m0, rest, rfl, rfl⟩
      · exact absurd hsr (by simp)

/-- C5 witness: a transient failure of the single NORMAL message at time 1
requeues it at the queue front with retry count 1, below the bound 3. -/
theorem c5_retry_bound_witness :
    ({ msgA with retry_count := 1 } : QueuedMessage).retry_count < 3 ∧
    (((drainStep (singleMsgState 1 msgA) 1 1 TransportResult.httpError).2.channel_queues 1).head?
      = some { msgA with retry_count := 1 }) ∧
    ∃ m0 rest, ((singleMsgState 1 msgA).channel_queues 1) = m0 :: rest ∧
      ({ msgA with retry_count := 1 } : QueuedMessage) =
        { m0 with retry_count := m0.retry_count + 1 } :=
  c5_retry_bound.2.1 (singleMsgState 1 msgA) 1 1 TransportResult.httpError
    { msgA with retry_count := 1 } (by decide)

/-- C6: send recording invariant.  When one worker iteration sends its
message, the send time is appended exactly once to the (purged) channel
window and exactly once to the (purged) global window, and the last-sent
time of the channel becomes the send time; when the iteration fails
(requeue or drop), neither window receives an append (they are only purged)
and the last-sent time is unchanged. -/
theorem c6_send_recording :
    ∀ (st : RLState) (cid : Nat) (now : ℚ) (res : TransportResult),
      (∀ m, (drainStep st cid now res).1 = StepRes.sentOk m →
        ((drainStep st cid now res).2).channel_message_count cid =
          dequeAppend CHANNEL_RATE_LIMIT
            (purgeWindow 5 now (st.channel_message_count cid)) now ∧
        ((drainStep st cid now res).2).global_message_times =
          dequeAppend GLOBAL_RATE_LIMIT
            (purgeWindow 1 now st.global_message_times) now ∧
        ((drainStep st cid now res).2).channel_last_sent cid = now) ∧
      (∀ m, ((drainStep st cid now res).1 = StepRes.requeue m ∨
          (drainStep st cid now res).1 = StepRes.drop m) →
        ((drainStep st cid now res).2).channel_message_count cid =
          purgeWindow 5 now (st.channel_message_count cid) ∧
        ((drainStep st cid now res).2).global_message_times =
          purgeWindow 1 now st.global_message_times ∧
        ((drainStep st cid now res).2).channel_last_sent cid =
          st.channel_last_sent cid) := by
  intro st cid now res
  constructor
  · intro m h1
    have hstep : drainStep st cid now res =
        (StepRes.sentOk m, (drainStep st cid now res).2) := by rw [← h1]
    rcases hqs : st.channel_queues cid with _ | ⟨m0, rest⟩
    · simp only [drainStep, hqs] at hstep
      exact absurd (Prod.mk.inj hstep).1 (by simp)
    · rcases drainStep_cases st cid now res m0 rest _ _ hqs hstep with
        ⟨hsr, _⟩ | ⟨_, _, _, hcmc, hgmt, hcls, _⟩ |
        ⟨⟨hsr, _, _⟩ | ⟨hsr, _, _⟩, _⟩
      · exact absurd hsr (by simp)
      · exact ⟨hcmc, hgmt, hcls⟩
      · exact absurd hsr (by simp)
      · exact absurd hsr (by simp)
  · intro m h1
    have hstep : drainStep st cid now res =
        ((drainStep st cid now res).1, (drainStep st cid now res).2) := rfl
    rcases hqs : st.channel_queues cid with _ | ⟨m0, rest⟩
    · have hfst : (drainStep st cid now res).1 = StepRes.emptyQ := by
        simp only [drainStep, hqs]
      rcases h1 with h1 | h1 <;> rw [hfst] at h1 <;> exact absurd h1 (by simp)
    · rcases drainStep_cases st cid now res m0 rest _ _ hqs hstep with
        ⟨hsr, _⟩ | ⟨hsr, _, _, _, _, _, _⟩ |
        ⟨_, _, hcmc, hgmt, hcls, _⟩
      · rcases h1 with h1 | h1 <;> rw [hsr] at h1 <;> exact absurd h1 (by simp)
      · rcases h1 with h1 | h1 <;> rw [hsr] at h1 <;> exact absurd h1 (by simp)
      · exact ⟨hcmc, hgmt, hcls⟩

/-- C6 witness: the successful send of the single NORMAL message at time 1
appends 1 to both empty windows and sets the last-sent time to 1. -/
theorem c6_send_recording_witness :
    ((drainStep (singleMsgState 1 msgA) 1 1 TransportResult.ok).2).channel_message_count 1 =
      dequeAppend CHANNEL_RATE_LIMIT
        (purgeWindow 5 1 ((singleMsgState 1 msgA).channel_message_count 1)) 1 ∧
    ((drainStep (singleMsgState 1 msgA) 1 1 TransportResult.ok).2).global_message_times =
      dequeAppend GLOBAL_RATE_LIMIT
        (purgeWindow 1 1 (singleMsgState 1 msgA).global_message_times) 1 ∧
    ((drainStep (singleMsgState 1 msgA) 1 1 TransportResult.ok).2).channel_last_sent 1 = 1 :=
  (c6_send_recording (singleMsgState 1 msgA) 1 1 TransportResult.ok).1 msgA (by decide)

/-- C7: global throttle stops everything.  While the clock is before the
global reset deadline the dispatcher cycle spawns no worker for any
destination; a worker iteration can send only when the deadline has passed
(the global governor is checked before every attempt); and concretely,
after a global 429 with retry_after 2 at time 1 the deadline is 3, the
global check blocks at time 2, sending is blocked at time 2 and resumes at
time 3. -/
theorem c7_global_throttle :
    (∀ (st : RLState) (now : ℚ), now < st.global_rate_limit_reset →
      (process_queues_cycle st now).2 = []) ∧
    (∀ (st : RLState) (cid : Nat) (now : ℚ) (res : TransportResult)
      (m : QueuedMessage),
      (drainStep st cid now res).1 = StepRes.sentOk m →
      st.global_rate_limit_reset ≤ now) ∧
    (((send_message baseState 1 (TransportResult.rateLimited 2 true)).2).global_rate_limit_reset
      = 3) ∧
    ((is_globally_rate_limited
      (send_message baseState 1 (TransportResult.rateLimited 2 true)).2 2).1 = true) ∧
    ((is_globally_rate_limited
      (send_message baseState 1 (TransportResult.rateLimited 2 true)).2 3).1 = false) ∧
    ((drainStep { singleMsgState 1 msgA with global_rate_limit_reset := 3 } 1 2
      TransportResult.ok).1 = StepRes.blocked) ∧
    ((drainStep { singleMsgState 1 msgA with global_rate_limit_reset := 3 } 1 3
      TransportResult.ok).1 = StepRes.sentOk msgA) := by
  refine ⟨?_, ?_, by decide, by decide, by decide, by decide, by decide⟩
  · intro st now h
    have hg : (is_globally_rate_limited st now).1 = true := glim_fst_of_deadline st now h
    simp only [process_queues_cycle, hg, if_true]
  · intro st cid now res m h1
    have hstep : drainStep st cid now res =
        (StepRes.sentOk m, (drainStep st cid now res).2) := by rw [← h1]
    rcases hqs : st.channel_queues cid with _ | ⟨m0, rest⟩
    · simp only [drainStep, hqs] at hstep
      exact absurd (Prod.mk.inj hstep).1 (by simp)
    · rcases drainStep_cases st cid now res m0 rest _ _ hqs hstep with
        ⟨hsr, _⟩ | ⟨_, _, _, _, _, _, hle⟩ |
        ⟨⟨hsr, _, _⟩ | ⟨hsr, _, _⟩, _⟩
      · exact absurd hsr (by simp)
      · exact hle
      · exact absurd hsr (by simp)
      · exact absurd hsr (by simp)

/-- C7 witness: at time 4, before a global deadline of 5, the dispatcher
cycle spawns no worker. -/
theorem c7_global_throttle_witness :
    (process_queues_cycle { baseState with global_rate_limit_reset := 5 } 4).2 = [] :=
  c7_global_throttle.1 { baseState with global_rate_limit_reset := 5 } 4 (by decide)

/-- C8: worker mutual exclusion.  Every step of the claim protocol keeps the
invariant that no two workers hold the claim of the same destination (and
every held claim is recorded in the processing set); every system reachable
from the initial one satisfies the invariant; and a worker started for a
destination already claimed in processing_channels returns immediately with
the limiter state untouched and no delivery events. -/
theorem c8_worker_mutual_exclusion :
    (∀ s s2 : WorkerSys, WInv s → WStep s s2 → WInv s2) ∧
    (∀ s : WorkerSys, Relation.ReflTransGen WStep initSys s → WInv s) ∧
    (∀ (fuel : Nat) (st : RLState) (cid : Nat) (found : Bool)
      (clock : Nat → ℚ) (transport : Nat → TransportResult),
      st.processing_channels.contains cid = true →
      process_channel_queue fuel st cid found clock transport = (st, [])) := by
  refine ⟨wstep_preserves, ?_, ?_⟩
  · intro s h
    induction h with
    | refl =>
      constructor
      · intro w1 w2 c h1
        exact absurd h1 (by simp [initSys])
      · intro w1 c h1
        exact absurd h1 (by simp [initSys])
    | tail hsteps hstep ih => exact wstep_preserves _ _ ih hstep
  · intro fuel st cid found clock transport h
    simp only [process_channel_queue, h, if_true]

/-- C8 witness: a worker started for channel 1 while channel 1 is already in
the processing set is a no-op on a concrete state. -/
theorem c8_worker_mutual_exclusion_witness :
    process_channel_queue 3 { singleMsgState 1 msgA with processing_channels := [1] }
      1 true clockA transportAllFail =
      ({ singleMsgState 1 msgA with processing_channels := [1] }, []) :=
  c8_worker_mutual_exclusion.2.2 3
    { singleMsgState 1 msgA with processing_channels := [1] } 1 true clockA
    transportAllFail (by decide)

/-- C9 counterexample: two consecutive stats calls on the same limiter state
(global reset deadline 5) with no intervening activity, at times 4 and 6,
do NOT return identical results: the global-throttle flag is true at the
first call and false at the second, so the two records differ. -/
theorem c9_stats_flag_counterexample :
    (get_queue_stats { baseState with global_rate_limit_reset := 5 }
      4).global_rate_limit_active = true ∧
    (get_queue_stats { baseState with global_rate_limit_reset := 5 }
      6).global_rate_limit_active = false ∧
    ((get_queue_stats { baseState with global_rate_limit_reset := 5 }
        4).global_rate_limit_active ==
      (get_queue_stats { baseState with global_rate_limit_reset := 5 }
        6).global_rate_limit_active) = false :=
  ⟨by decide, by decide, by decide⟩

/-- C9 amended: with no intervening activity, all the count fields of two
stats calls are always identical (total queued, active channels, active
workers, priority breakdown, recent global send count); the full records
including the global-throttle flag are identical whenever the global reset
deadline does not pass between the two call times. -/
theorem c9_stats_idempotent_amended :
    ∀ (st : RLState) (t1 t2 : ℚ),
      ((get_queue_stats st t1).total_queued = (get_queue_stats st t2).total_queued ∧
        (get_queue_stats st t1).active_channels = (get_queue_stats st t2).active_channels ∧
        (get_queue_stats st t1).processing_channels =
          (get_queue_stats st t2).processing_channels ∧
        (get_queue_stats st t1).priority_breakdown =
          (get_queue_stats st t2).priority_breakdown ∧
        (get_queue_stats st t1).recent_global_messages =
          (get_queue_stats st t2).recent_global_messages) ∧
      ((decide (t1 < st.global_rate_limit_reset) =
          decide (t2 < st.global_rate_limit_reset)) →
        get_queue_stats st t1 = get_queue_stats st t2) := by
  intro st t1 t2
  refine ⟨⟨rfl, rfl, rfl, rfl, rfl⟩, ?_⟩
  intro h
  simp only [get_queue_stats, QueueStats.mk.injEq, and_true, true_and]
  exact h

/-- C9 witness: two calls at times 1 and 2, both before the deadline 5,
return the identical record. -/
theorem c9_stats_idempotent_amended_witness :
    get_queue_stats { baseState with global_rate_limit_reset := 5 } 1 =
      get_queue_stats { baseState with global_rate_limit_reset := 5 } 2 :=
  (c9_stats_idempotent_amended { baseState with global_rate_limit_reset := 5 } 1 2).2
    (by decide)

/-- C10: get_queue_stats is read-only.  The method body contains no write
(it reads the dict values, list lengths and the clock, never subscripting a
defaultdict), so the post-state of a stats call equals the pre-state in
every component: queues, key list, last-sent map, both windows, processing
set, reset deadline and dedup records. -/
theorem c10_stats_read_only :
    ∀ (st : RLState) (now : ℚ),
      ((get_queue_stats_call st now).2).channel_queues_keys = st.channel_queues_keys ∧
      ((get_queue_stats_call st now).2).channel_queues = st.channel_queues ∧
      ((get_queue_stats_call st now).2).channel_last_sent = st.channel_last_sent ∧
      ((get_queue_stats_call st now).2).channel_message_count = st.channel_message_count ∧
      ((get_queue_stats_call st now).2).global_message_times = st.global_message_times ∧
      ((get_queue_stats_call st now).2).processing_channels = st.processing_channels ∧
      ((get_queue_stats_call st now).2).global_rate_limit_reset =
        st.global_rate_limit_reset ∧
      ((get_queue_stats_call st now).2).recent_embeds = st.recent_embeds ∧
      (get_queue_stats_call st now).2 = st :=
  fun st now => ⟨rfl, rfl, rfl, rfl, rfl, rfl, rfl, rfl, rfl⟩

end AdvancedRateLimiter
